import Mathlib

/-!
Verification development for the OrmerodSensorBoard firmware
(src/Firmware/Version2-differential-IR/OrmerodLedSensor.cpp).

The firmware runs on an ATtiny-class AVR where `int` is 16 bits wide, so
every `uint16_t` operation is exact arithmetic reduced modulo 2^16.  We
embed the globals of the C translation unit as a record and the ISR body,
`checkFan` and the foreground decision logic as pure functions over it.
ADC readings and the values of input pins are passed in as parameters.
Single hardware output bits (LED drives, the fan control bit, the two
Duet output bits) are embedded as `Bool` fields; ADMUX is kept as the
numeric value the code assigns.
-/

namespace Ormerod

/-- Reduction modulo 2 to the 16, the semantics of `uint16_t` arithmetic. -/
def u16 (n : Nat) : Nat := n % 65536

-- Constants from the source, with their source names.
def interruptFreq : Nat := 8000
def cyclesAveragedIR : Nat := 8
def farThreshold : Nat := 10 * cyclesAveragedIR
def simpleNearThreshold : Nat := 30 * cyclesAveragedIR
def saturatedThreshold : Nat := 870 * cyclesAveragedIR
def fanSampleFreq : Nat := 16
def fanSampleIntervalTicks : Nat := interruptFreq / fanSampleFreq
def fanSamplesAveraged : Nat := 16
def thermistorConnectedThreshold1K : Nat := 30
def thermistorOffThreshold1K : Nat := 340
def thermistorOnThreshold1K : Nat := 400
def thermistorConnectedThreshold4K7 : Nat := 7
def thermistorOffThreshold4K7 : Nat := 78
def thermistorOnThreshold4K7 : Nat := 92
def fanOnSeconds : Nat := 2

/-- One rolling accumulator: a running sum, the ring of recent samples and
the write cursor.  The source keeps three IR instances (near, far, off,
capacity `cyclesAveragedIR`) and a fan pair (capacity `fanSamplesAveraged`). -/
structure Accum where
  sum : Nat
  readings : List Nat
  index : Nat
  deriving Repr, DecidableEq

/-- The update pattern the ISR applies to an accumulator, e.g.
`nearSumIR = nearSumIR - nearLedReadings[nearLedIndex] + adcVal;
nearLedReadings[nearLedIndex] = adcVal;
nearLedIndex = (nearLedIndex + 1) & (cyclesAveragedIR - 1);`
in `uint16_t` arithmetic.  `N` is the capacity (a power of two in the source). -/
def accumPush (N : Nat) (a : Accum) (newSample : Nat) : Accum :=
  { sum := u16 (u16 (a.sum + 65536 - a.readings.getD a.index 0) + newSample)
    readings := a.readings.set a.index newSample
    index := (a.index + 1) &&& (N - 1) }

/-- The global state of the translation unit that the ISR, `checkFan` and
the foreground loop read and write. -/
structure SensorState where
  tickCounter : Nat          -- volatile uint16_t
  running : Bool
  fan1Kmode : Bool
  nearSumIR : Nat            -- volatile uint16_t
  farSumIR : Nat
  offSumIR : Nat
  nearLedReadings : List Nat -- uint16_t[cyclesAveragedIR]
  farLedReadings : List Nat
  offReadings : List Nat
  nearLedIndex : Nat         -- irIndex_t, invariant value < cyclesAveragedIR
  farLedIndex : Nat
  offIndex : Nat
  fanReadings : List Nat     -- uint16_t[fanSamplesAveraged]
  fanOffsets : List Nat
  fanReadingSum : Nat        -- volatile uint16_t
  fanOffsetSum : Nat
  fanIndex : Nat             -- fanIndex_t, invariant value < fanSamplesAveraged
  farLed : Bool              -- PORTB bits 0 and 1 (PortBFarLedMask), driven together
  nearLed : Bool             -- PORTA bit 6 (PortANearLedBit)
  admux : Nat                -- ADMUX register value
  deriving Repr, DecidableEq

/-- The body of `ISR(TIM1_COMPB_vect)`: read the pending ADC conversion,
dispatch on the low 4 bits of the tick counter, update one accumulator
(when `running`), drive the LEDs and the ADC mux, increment the tick.
`adcRaw` is the value of the ADC data register. -/
def isrStep (s : SensorState) (adcRaw : Nat) : SensorState :=
  let adcVal := adcRaw &&& 1023
  let locTickCounter := s.tickCounter % 256      -- (uint8_t)tickCounter
  let s1 :=
    match locTickCounter &&& 15 with
    | 0 =>
      -- LEDs off, fan reading done; off reading now, far next
      let s0 :=
        if s.running then
          if s.fan1Kmode then
            let adcVal2 := adcVal ^^^ 512        -- adcVal ^= 0x0200u
            if locTickCounter &&& 16 = 0 then
              let a := accumPush fanSamplesAveraged
                ⟨s.fanReadingSum, s.fanReadings, s.fanIndex⟩ adcVal2
              { s with fanReadingSum := a.sum, fanReadings := a.readings,
                       fanIndex := a.index }
            else
              { s with
                fanOffsetSum :=
                  u16 (u16 (s.fanOffsetSum + 65536 - s.fanOffsets.getD s.fanIndex 0) + adcVal2)
                fanOffsets := s.fanOffsets.set s.fanIndex adcVal2 }
          else
            let a := accumPush fanSamplesAveraged
              ⟨s.fanReadingSum, s.fanReadings, s.fanIndex⟩ adcVal
            { s with fanReadingSum := a.sum, fanReadings := a.readings,
                     fanIndex := a.index }
        else s
      { s0 with farLed := true }                 -- PORTB |= PortBFarLedMask
    | 3 | 6 | 9 =>
      -- near reading done; off reading now, far next
      let s0 :=
        if s.running then
          let a := accumPush cyclesAveragedIR
            ⟨s.nearSumIR, s.nearLedReadings, s.nearLedIndex⟩ adcVal
          { s with nearSumIR := a.sum, nearLedReadings := a.readings,
                   nearLedIndex := a.index }
        else s
      { s0 with farLed := true }
    | 1 | 4 | 7 | 10 =>
      -- off reading done; far reading now, near next
      let s0 :=
        if s.running then
          let a := accumPush cyclesAveragedIR
            ⟨s.offSumIR, s.offReadings, s.offIndex⟩ adcVal
          { s with offSumIR := a.sum, offReadings := a.readings,
                   offIndex := a.index }
        else s
      { s0 with farLed := false,                 -- PORTB &= ~PortBFarLedMask
                nearLed := true }                -- PORTA |= BITVAL(PortANearLedBit)
    | 2 | 5 | 8 =>
      -- far reading done; near reading now, off next
      let s0 :=
        if s.running then
          let a := accumPush cyclesAveragedIR
            ⟨s.farSumIR, s.farLedReadings, s.farLedIndex⟩ adcVal
          { s with farSumIR := a.sum, farLedReadings := a.readings,
                   farLedIndex := a.index }
        else s
      { s0 with nearLed := false }
    | 11 =>
      -- far reading done; near reading now, fan next: also reprogram ADMUX
      let s0 :=
        if s.running then
          let a := accumPush cyclesAveragedIR
            ⟨s.farSumIR, s.farLedReadings, s.farLedIndex⟩ adcVal
          { s with farSumIR := a.sum, farLedReadings := a.readings,
                   farLedIndex := a.index }
        else s
      { s0 with nearLed := false,
                admux := if s.fan1Kmode then
                           if locTickCounter &&& 16 ≠ 0 then 19   -- 0b00010011
                           else 51                                -- 0b00110011
                         else 3 }                 -- BITVAL(MUX1) | BITVAL(MUX0)
    | 12 =>
      -- near reading done; discarded fan reading next
      if s.running then
        let a := accumPush cyclesAveragedIR
          ⟨s.nearSumIR, s.nearLedReadings, s.nearLedIndex⟩ adcVal
        { s with nearSumIR := a.sum, nearLedReadings := a.readings,
                 nearLedIndex := a.index }
      else s
    | 13 | 14 =>
      -- dummy fan readings
      s
    | 15 =>
      { s with admux := 1 }                       -- ADMUX = BITVAL(MUX0)
    | _ => s
  { s1 with tickCounter := u16 (s1.tickCounter + 1) }    -- ++tickCounter

/-- The ghost function `irInvariant()` of the source: every IR reading slot
holds at most 1023 and each IR sum is the exact sum of its array. -/
def irInvariant (s : SensorState) : Prop :=
  (∀ r ∈ s.nearLedReadings, r ≤ 1023) ∧
  (∀ r ∈ s.farLedReadings, r ≤ 1023) ∧
  (∀ r ∈ s.offReadings, r ≤ 1023) ∧
  s.nearSumIR = s.nearLedReadings.sum ∧
  s.farSumIR = s.farLedReadings.sum ∧
  s.offSumIR = s.offReadings.sum

/-- The ghost function `fanInvariant()` of the source. -/
def fanInvariant (s : SensorState) : Prop :=
  (∀ r ∈ s.fanReadings, r ≤ 1023) ∧
  (∀ r ∈ s.fanOffsets, r ≤ 1023) ∧
  s.fanReadingSum = s.fanReadings.sum ∧
  s.fanOffsetSum = s.fanOffsets.sum

/-- Structural facts the C declarations guarantee: the arrays have their
declared lengths and each cursor is in range (the `irIndex_t` and
`fanIndex_t` typedef invariants). -/
def wfState (s : SensorState) : Prop :=
  s.nearLedReadings.length = cyclesAveragedIR ∧
  s.farLedReadings.length = cyclesAveragedIR ∧
  s.offReadings.length = cyclesAveragedIR ∧
  s.nearLedIndex < cyclesAveragedIR ∧
  s.farLedIndex < cyclesAveragedIR ∧
  s.offIndex < cyclesAveragedIR ∧
  s.fanReadings.length = fanSamplesAveraged ∧
  s.fanOffsets.length = fanSamplesAveraged ∧
  s.fanIndex < fanSamplesAveraged

instance (s : SensorState) : Decidable (irInvariant s) := by
  unfold irInvariant; infer_instance

instance (s : SensorState) : Decidable (fanInvariant s) := by
  unfold fanInvariant; infer_instance

instance (s : SensorState) : Decidable (wfState s) := by
  unfold wfState; infer_instance

/-! ## The fan controller, `checkFan` -/

/-- The state `checkFan` reads and writes: the fan control output bit
(PORTA bit `PortAFanControlBit`), the hold counter `fanChangeCount`, and
the values of the two volatile fan accumulator sums during this
invocation. -/
structure FanState where
  fanOn : Bool
  fanChangeCount : Nat
  fanReadingSum : Nat
  fanOffsetSum : Nat
  deriving Repr, DecidableEq

/-- The body of `checkFan` from the source.  The three thresholds are the
globals `thermistorConnectedThreshold`, `thermistorOnThreshold` and
`thermistorOffThreshold`, fixed at startup. -/
def checkFan (thermistorConnectedThreshold thermistorOnThreshold
    thermistorOffThreshold : Nat) (s : FanState) : FanState :=
  if s.fanOn then
    -- Fan is on. Turn it off if thermistor is connected and temp <= off-threshold
    if s.fanReadingSum < s.fanOffsetSum then
      let fanDiff := s.fanOffsetSum - s.fanReadingSum
      if thermistorConnectedThreshold ≤ fanDiff ∧ fanDiff ≤ thermistorOffThreshold then
        if s.fanChangeCount = 0 then
          { s with fanOn := false }
        else
          { s with fanChangeCount := s.fanChangeCount - 1 }
      else s
    else s
  else
    -- Fan is off. Turn it on if thermistor is disconnected or temp >= on-threshold
    if s.fanOffsetSum ≤ s.fanReadingSum ∨
       s.fanOffsetSum - s.fanReadingSum < thermistorConnectedThreshold ∨
       thermistorOnThreshold ≤ s.fanOffsetSum - s.fanReadingSum then
      { s with fanOn := true,
               fanChangeCount := fanOnSeconds * fanSampleFreq - 1 }
    else s

/-- One fan poll cycle: run `checkFan` on the current (fan output, hold
counter) pair with the accumulator sums this invocation observes. -/
def fanPoll (ct onT offT : Nat) (p : Bool × Nat) (sums : Nat × Nat) : Bool × Nat :=
  let r := checkFan ct onT offT ⟨p.1, p.2, sums.1, sums.2⟩
  (r.fanOn, r.fanChangeCount)

/-! ## The foreground sensor decision, from `runIRsensorAndFan` -/

/-- The four discrete output levels, named after the source functions
`SetOutputOff`, `SetOutputApproaching`, `SetOutputOn`, `SetOutputSaturated`. -/
inductive SensorOutput where
  | Off
  | Approaching
  | On
  | Saturated
  deriving Repr, DecidableEq

/-- Pin pair (Duet 13K output PA2, Duet 10K output PA7) each output level
sets, from the four `SetOutput` functions. -/
def outputPins : SensorOutput → Bool × Bool
  | .Off => (false, false)
  | .Approaching => (true, false)
  | .On => (false, true)
  | .Saturated => (true, true)

/-- The baseline subtraction applied to the snapshotted sums:
`locNearSum = (locNearSum > locOffSum) ? locNearSum - locOffSum : 0;`. -/
def baselineAdjust (x off : Nat) : Nat :=
  if off < x then x - off else 0

/-- The per-iteration output decision of the foreground loop in
`runIRsensorAndFan`, as a function of the snapshotted sums and the Duet
input pin (PINA bit `PortADuetInputBit`; the pin reading low selects
simple mode). -/
def runIRdecision (locNearSum locFarSum locOffSum : Nat)
    (duetInputHigh : Bool) : SensorOutput :=
  if saturatedThreshold ≤ locNearSum ∨ saturatedThreshold ≤ locFarSum then
    .Saturated
  else
    let near2 := baselineAdjust locNearSum locOffSum
    let far2 := baselineAdjust locFarSum locOffSum
    if duetInputHigh = false then
      -- Backup mode (simple modulated IR sensor mode)
      if simpleNearThreshold ≤ near2 then .On else .Off
    else
      -- Differential modulated IR sensor mode
      if far2 < near2 ∧ farThreshold ≤ far2 then .On
      else if farThreshold ≤ far2 ∧ far2 * 5 ≤ near2 * 6 then .Approaching
      else .Off

/-! ## The phase table of the scheduler, as the specification states it

The specification describes each ISR firing as a phase-indexed action:
which accumulator the pending ADC result is routed into, which LED
drives are set, and which ADMUX value is programmed for the upcoming
conversions.  We state that table as data and give it the obvious
interpretation, then prove the ISR body equal to the interpretation. -/

/-- Destination of the ADC result of one phase. -/
inductive AccumTarget where
  | noAccum      -- result discarded (dummy phases, or not running)
  | nearIR
  | farIR
  | offIR
  | fanActive    -- fanReadingSum ring, advances the shared fan cursor
  | fanOffset    -- fanOffsets ring, shared fan cursor not advanced
  deriving Repr, DecidableEq

/-- What one phase does: route the (possibly sign-converted) ADC value,
optionally drive each LED, optionally reprogram ADMUX. -/
structure PhaseAction where
  target : AccumTarget
  xor512 : Bool              -- convert signed reading to unsigned biased by 512
  setFarLed : Option Bool
  setNearLed : Option Bool
  setAdmux : Option Nat
  deriving Repr, DecidableEq

/-- Modelled after the phase table in the specification (section 4.2):
the action of each firing as a function of the low five bits of the tick
counter and the `running` and `fan1Kmode` flags alone.  Phase = low four
bits; bit 4 selects the fan half-cycle (active vs offset sample in the
differential 1K variant). -/
def phaseAction (tick5 : Nat) (running fan1K : Bool) : PhaseAction :=
  let phase := tick5 % 16
  let firstHalf := tick5 < 16          -- bit 4 of the tick counter is clear
  if phase = 0 then
    { target := if running then
                  (if fan1K then (if firstHalf then .fanActive else .fanOffset)
                   else .fanActive)
                else .noAccum
      xor512 := fan1K
      setFarLed := some true, setNearLed := none, setAdmux := none }
  else if phase = 3 ∨ phase = 6 ∨ phase = 9 then
    { target := if running then .nearIR else .noAccum, xor512 := false
      setFarLed := some true, setNearLed := none, setAdmux := none }
  else if phase = 1 ∨ phase = 4 ∨ phase = 7 ∨ phase = 10 then
    { target := if running then .offIR else .noAccum, xor512 := false
      setFarLed := some false, setNearLed := some true, setAdmux := none }
  else if phase = 2 ∨ phase = 5 ∨ phase = 8 then
    { target := if running then .farIR else .noAccum, xor512 := false
      setFarLed := none, setNearLed := some false, setAdmux := none }
  else if phase = 11 then
    { target := if running then .farIR else .noAccum, xor512 := false
      setFarLed := none, setNearLed := some false
      setAdmux := some (if fan1K then (if firstHalf then 51 else 19) else 3) }
  else if phase = 12 then
    { target := if running then .nearIR else .noAccum, xor512 := false
      setFarLed := none, setNearLed := none, setAdmux := none }
  else if phase = 13 ∨ phase = 14 then
    { target := .noAccum, xor512 := false
      setFarLed := none, setNearLed := none, setAdmux := none }
  else -- phase = 15
    { target := .noAccum, xor512 := false
      setFarLed := none, setNearLed := none, setAdmux := some 1 }

/-- Interpretation of a `PhaseAction` on the device state: mask the ADC
register to 10 bits, apply the optional sign conversion, route into the
designated accumulator, drive the LEDs and ADMUX, increment the tick. -/
def applyPhaseAction (act : PhaseAction) (s : SensorState) (adcRaw : Nat) :
    SensorState :=
  let adcVal0 := adcRaw &&& 1023
  let adcVal := if act.xor512 then adcVal0 ^^^ 512 else adcVal0
  let s0 :=
    match act.target with
    | .noAccum => s
    | .nearIR =>
      let a := accumPush cyclesAveragedIR
        ⟨s.nearSumIR, s.nearLedReadings, s.nearLedIndex⟩ adcVal
      { s with nearSumIR := a.sum, nearLedReadings := a.readings,
               nearLedIndex := a.index }
    | .farIR =>
      let a := accumPush cyclesAveragedIR
        ⟨s.farSumIR, s.farLedReadings, s.farLedIndex⟩ adcVal
      { s with farSumIR := a.sum, farLedReadings := a.readings,
               farLedIndex := a.index }
    | .offIR =>
      let a := accumPush cyclesAveragedIR
        ⟨s.offSumIR, s.offReadings, s.offIndex⟩ adcVal
      { s with offSumIR := a.sum, offReadings := a.readings,
               offIndex := a.index }
    | .fanActive =>
      let a := accumPush fanSamplesAveraged
        ⟨s.fanReadingSum, s.fanReadings, s.fanIndex⟩ adcVal
      { s with fanReadingSum := a.sum, fanReadings := a.readings,
               fanIndex := a.index }
    | .fanOffset =>
      { s with
        fanOffsetSum :=
          u16 (u16 (s.fanOffsetSum + 65536 - s.fanOffsets.getD s.fanIndex 0) + adcVal)
        fanOffsets := s.fanOffsets.set s.fanIndex adcVal }
  let s1 := { s0 with farLed := act.setFarLed.getD s0.farLed,
                      nearLed := act.setNearLed.getD s0.nearLed,
                      admux := act.setAdmux.getD s0.admux }
  { s1 with tickCounter := u16 (s1.tickCounter + 1) }

/-! ## Shared-variable access traces of the foreground code

For the concurrency claim we record, straight from the source text, the
sequence of accumulator-sum (and tick counter) reads the foreground code
performs, together with the interrupt mask operations `cli()` / `sei()`
around them, and check which reads happen with interrupts disabled. -/

/-- The volatile shared variables the foreground reads. -/
inductive SharedVar where
  | nearSumIRv
  | farSumIRv
  | offSumIRv
  | fanReadingSumv
  | fanOffsetSumv
  | tickCounterv
  deriving Repr, DecidableEq

/-- One foreground atomic step touching the shared state or the mask. -/
inductive FgAtom where
  | cli
  | sei
  | readShared (v : SharedVar)
  deriving Repr, DecidableEq

/-- Whether a shared variable is one of the five accumulator sums. -/
def isAccumSum : SharedVar → Bool
  | .nearSumIRv => true
  | .farSumIRv => true
  | .offSumIRv => true
  | .fanReadingSumv => true
  | .fanOffsetSumv => true
  | .tickCounterv => false

/-- Walk a trace tracking the interrupt-enable state (interrupts start
enabled) and report whether every accumulator-sum read happened with
interrupts disabled. -/
def sumReadsMaskedFrom : List FgAtom → Bool → Bool
  | [], _ => true
  | .cli :: rest, _ => sumReadsMaskedFrom rest false
  | .sei :: rest, _ => sumReadsMaskedFrom rest true
  | .readShared v :: rest, enabled =>
    (!(isAccumSum v && enabled)) && sumReadsMaskedFrom rest enabled

def allSumReadsMasked (tr : List FgAtom) : Bool :=
  sumReadsMaskedFrom tr true

/-- The snapshot of the three IR sums at the top of the foreground loop
body: `cli(); locNearSum = nearSumIR; locFarSum = farSumIR;
locOffSum = offSumIR; sei();`. -/
def irSnapshotTrace : List FgAtom :=
  [.cli, .readShared .nearSumIRv, .readShared .farSumIRv,
   .readShared .offSumIRv, .sei]

/-- The tick counter poll later in the loop body:
`cli(); uint16_t locTickCounter = tickCounter; sei();`. -/
def tickPollTrace : List FgAtom :=
  [.cli, .readShared .tickCounterv, .sei]

/-- The volatile reads `checkFan` performs on its fan-is-on path:
`fanReadingSum < fanOffsetSum`, then
`fanDiff = fanOffsetSum - fanReadingSum`; no `cli()`/`sei()` appears
anywhere in `checkFan`. -/
def checkFanOnTrace : List FgAtom :=
  [.readShared .fanReadingSumv, .readShared .fanOffsetSumv,
   .readShared .fanOffsetSumv, .readShared .fanReadingSumv]

/-- The volatile reads `checkFan` performs on its fan-is-off path:
`fanReadingSum >= fanOffsetSum || (fanDiff = fanOffsetSum - fanReadingSum)
< thermistorConnectedThreshold || fanDiff >= thermistorOnThreshold`. -/
def checkFanOffTrace : List FgAtom :=
  [.readShared .fanReadingSumv, .readShared .fanOffsetSumv,
   .readShared .fanOffsetSumv, .readShared .fanReadingSumv]

/-- The shared reads of one full foreground loop iteration that reaches
the fan poll with the fan output on. -/
def fgIterationTrace : List FgAtom :=
  irSnapshotTrace ++ tickPollTrace ++ checkFanOnTrace

/-- A concrete device state mirroring the state right after `main()`
finishes initialisation in 1K mode and `runIRsensorAndFan` has zeroed the
IR accumulators and set `running` (fan rings pre-filled with
`readingInit = 512 - thermistorConnectedThreshold1K` and
`offsetInit = 512`). -/
def testState : SensorState :=
  { tickCounter := 0, running := true, fan1Kmode := true
    nearSumIR := 0, farSumIR := 0, offSumIR := 0
    nearLedReadings := List.replicate 8 0
    farLedReadings := List.replicate 8 0
    offReadings := List.replicate 8 0
    nearLedIndex := 0, farLedIndex := 0, offIndex := 0
    fanReadings := List.replicate 16 482
    fanOffsets := List.replicate 16 512
    fanReadingSum := 16 * 482, fanOffsetSum := 16 * 512, fanIndex := 0
    farLed := false, nearLed := false, admux := 1 }

/-! ## Generic accumulator well-formedness and invariant -/

/-- Structural facts about one accumulator of capacity `N`. -/
def accumWf (N : Nat) (a : Accum) : Prop :=
  a.readings.length = N ∧ a.index < N

/-- The per-accumulator part of the ghost invariants: all slots are
10-bit values and the running sum is exact. -/
def accumInv (a : Accum) : Prop :=
  (∀ r ∈ a.readings, r ≤ 1023) ∧ a.sum = a.readings.sum

instance (N : Nat) (a : Accum) : Decidable (accumWf N a) := by
  unfold accumWf; infer_instance

instance (a : Accum) : Decidable (accumInv a) := by
  unfold accumInv; infer_instance

/-! ## Arithmetic helper lemmas -/

theorem land_fifteen (t : Nat) : t &&& 15 = t % 16 := by
  have h := Nat.and_pow_two_sub_one_eq_mod t 4
  norm_num at h
  exact h

theorem land_seven (t : Nat) : t &&& 7 = t % 8 := by
  have h := Nat.and_pow_two_sub_one_eq_mod t 3
  norm_num at h
  exact h

theorem land_mask_mod {N k : Nat} (hN : N = 2 ^ k) (t : Nat) :
    t &&& (N - 1) = t % N := by
  subst hN
  exact Nat.and_pow_two_sub_one_eq_mod t k

theorem mod256_land15 (t : Nat) : (t % 256) &&& 15 = t % 16 := by
  rw [land_fifteen]
  exact Nat.mod_mod_of_dvd t (by norm_num)

theorem mod256_land16_eq_zero_iff (t : Nat) :
    ((t % 256) &&& 16 = 0) ↔ (t % 32 < 16) := by
  have h1 : (t % 256) &&& 16 = ((t % 256).testBit 4).toNat * 16 := by
    have := Nat.and_two_pow (t % 256) 4
    norm_num at this
    exact this
  have h2 : (t % 256).testBit 4 = t.testBit 4 := by
    have : t % 256 = t % 2 ^ 8 := by norm_num
    rw [this, Nat.testBit_mod_two_pow]
    norm_num
  have h3 : t.testBit 4 = decide (t / 16 % 2 = 1) := by
    have := Nat.testBit_to_div_mod (x := t) (i := 4)
    norm_num at this
    exact this
  have h4 : t % 32 / 16 = t / 16 % 2 := by
    have := Nat.mod_mul_right_div_self t 16 2
    norm_num at this
    exact this
  rw [h1, h2, h3]
  rcases Nat.mod_two_eq_zero_or_one (t / 16) with h | h <;> simp [h] <;> omega

theorem mod32_mod16 (t : Nat) : (t % 32) % 16 = t % 16 :=
  Nat.mod_mod_of_dvd t (by norm_num)

theorem land1023_le (adcRaw : Nat) : adcRaw &&& 1023 ≤ 1023 :=
  Nat.and_le_right

theorem xor512_le {x : Nat} (hx : x ≤ 1023) : x ^^^ 512 ≤ 1023 := by
  have h : x ^^^ 512 < 2 ^ 10 :=
    Nat.xor_lt_two_pow (by omega) (by norm_num)
  omega

/-! ## List helper lemmas -/

theorem getD_le_sum : ∀ (l : List Nat) (i : Nat), l.getD i 0 ≤ l.sum := by
  intro l
  induction l with
  | nil => intro i; simp
  | cons a l ih =>
    intro i
    cases i with
    | zero => simp
    | succ j =>
      have := ih j
      simp only [List.getD_cons_succ, List.sum_cons]
      omega

theorem sum_set_add : ∀ (l : List Nat) (i : Nat), i < l.length → ∀ x : Nat,
    (l.set i x).sum + l.getD i 0 = l.sum + x := by
  intro l
  induction l with
  | nil => intro i hi; simp at hi
  | cons a l ih =>
    intro i hi x
    cases i with
    | zero => simp [Nat.add_comm, Nat.add_left_comm]
    | succ j =>
      have hj : j < l.length := by simpa using hi
      have := ih j hj x
      simp only [List.set_cons_succ, List.sum_cons, List.getD_cons_succ]
      omega

theorem sum_le_bound : ∀ (l : List Nat) (b : Nat), (∀ r ∈ l, r ≤ b) →
    l.sum ≤ b * l.length := by
  intro l
  induction l with
  | nil => intro b _; simp
  | cons a l ih =>
    intro b hb
    have h1 : a ≤ b := hb a (by simp)
    have h2 : l.sum ≤ b * l.length := ih b fun r hr => hb r (by simp [hr])
    simp only [List.sum_cons, List.length_cons]
    have : b * (l.length + 1) = b * l.length + b := by ring
    omega

theorem drop_one_append {α : Type} (A B : List α) (h : A ≠ []) :
    (A ++ B).drop 1 = A.drop 1 ++ B := by
  cases A with
  | nil => exact absurd rfl h
  | cons a A2 => simp

/-! ## One accumulator push: well-formedness and invariant preservation -/

theorem accumPush_wf {N k : Nat} (hN : N = 2 ^ k) (a : Accum) (x : Nat)
    (hwf : accumWf N a) : accumWf N (accumPush N a x) := by
  obtain ⟨hlen, hidx⟩ := hwf
  refine ⟨by simp [accumPush, hlen], ?_⟩
  show (a.index + 1) &&& (N - 1) < N
  rw [land_mask_mod hN]
  exact Nat.mod_lt _ (by omega)

theorem accumPush_inv {N : Nat} (hbound : 1023 * N < 65536)
    (a : Accum) (x : Nat) (hwf : accumWf N a) (hinv : accumInv a)
    (hx : x ≤ 1023) : accumInv (accumPush N a x) := by
  obtain ⟨hlen, hidx⟩ := hwf
  obtain ⟨hr, hsum⟩ := hinv
  constructor
  · intro r hmem
    simp only [accumPush] at hmem
    rcases List.mem_or_eq_of_mem_set hmem with h | h
    · exact hr r h
    · omega
  · have hgd : a.readings.getD a.index 0 ≤ a.readings.sum :=
      getD_le_sum a.readings a.index
    have hs : a.readings.sum ≤ 1023 * N := by
      have h2 := sum_le_bound a.readings 1023 hr
      rw [hlen] at h2
      exact h2
    have hset := sum_set_add a.readings a.index (by omega) x
    have hsnew : (a.readings.set a.index x).sum ≤ 1023 * N := by
      have h3 : ∀ r ∈ a.readings.set a.index x, r ≤ 1023 := by
        intro r hmem
        rcases List.mem_or_eq_of_mem_set hmem with h | h
        · exact hr r h
        · omega
      have h4 := sum_le_bound (a.readings.set a.index x) 1023 h3
      rw [List.length_set, hlen] at h4
      exact h4
    show u16 (u16 (a.sum + 65536 - a.readings.getD a.index 0) + x) =
      (a.readings.set a.index x).sum
    rw [hsum]
    unfold u16
    have hstep : (a.readings.sum + 65536 - a.readings.getD a.index 0) % 65536
        = a.readings.sum - a.readings.getD a.index 0 := by omega
    rw [hstep]
    omega

/-! ## The ring in push order: the oldest-first view of an accumulator -/

/-- The slots of an accumulator listed oldest first (the cursor points at
the slot that will be overwritten next, i.e. the oldest sample). -/
def ringView (a : Accum) : List Nat :=
  a.readings.drop a.index ++ a.readings.take a.index

theorem ringView_length (a : Accum) (hidx : a.index ≤ a.readings.length) :
    (ringView a).length = a.readings.length := by
  simp [ringView]
  omega

theorem ringView_sum (a : Accum) : (ringView a).sum = a.readings.sum := by
  unfold ringView
  rw [List.sum_append, Nat.add_comm, ← List.sum_append, List.take_append_drop]

/-- One push shifts the oldest-first view left by one and appends the new
sample at the young end. -/
theorem ringView_push {N k : Nat} (hN : N = 2 ^ k) (a : Accum) (x : Nat)
    (hlen : a.readings.length = N) (hidx : a.index < N) :
    ringView (accumPush N a x) = (ringView a).drop 1 ++ [x] := by
  have hNpos : 0 < N := by
    subst hN
    exact Nat.pos_pow_of_pos k (by norm_num)
  have hset : a.readings.set a.index x
      = (a.readings.take a.index ++ [x]) ++ a.readings.drop (a.index + 1) := by
    rw [List.set_eq_take_cons_drop x (by omega)]
    simp
  have hmod : (a.index + 1) &&& (N - 1) = (a.index + 1) % N :=
    land_mask_mod hN _
  have hlen2 : (a.readings.take a.index ++ [x]).length = a.index + 1 := by
    simp
    omega
  have hdropview : (a.readings.drop a.index ++ a.readings.take a.index).drop 1
      = a.readings.drop (a.index + 1) ++ a.readings.take a.index := by
    rw [drop_one_append _ _ (by
      intro hnil
      have := congrArg List.length hnil
      simp at this
      omega)]
    rw [List.drop_drop]
  unfold ringView accumPush
  simp only [hmod, hset]
  rcases Nat.lt_or_ge (a.index + 1) N with hlt | hge
  · -- cursor advances without wrapping
    rw [Nat.mod_eq_of_lt hlt]
    rw [List.drop_left' hlen2, List.take_left' hlen2]
    rw [hdropview]
    simp
  · -- cursor wraps to zero
    have hEq : a.index + 1 = N := by omega
    have hz : (a.index + 1) % N = 0 := by
      rw [hEq, Nat.mod_self]
    rw [hz]
    simp only [List.drop_zero, List.take_zero, List.append_nil]
    have hdropnil : a.readings.drop (a.index + 1) = [] :=
      List.drop_eq_nil_of_le (by omega)
    rw [hdropview, hdropnil]
    simp [hdropnil]

/-- Folding a list of pushes: the oldest-first view of the result is the
tail window of the initial view extended by the pushes. -/
theorem foldl_accumPush_ringView {N k : Nat} (hN : N = 2 ^ k) :
    ∀ (pushes : List Nat) (a : Accum), accumWf N a →
    ringView (pushes.foldl (accumPush N) a)
      = ((ringView a) ++ pushes).drop pushes.length := by
  intro pushes
  induction pushes with
  | nil =>
    intro a _
    simp
  | cons p ps ih =>
    intro a hwf
    obtain ⟨hlen, hidx⟩ := hwf
    have hNpos : 0 < N := by omega
    have hview : ∃ h t, ringView a = h :: t := by
      have hlv : (ringView a).length = N := by
        rw [ringView_length a (by omega), hlen]
      cases hr : ringView a with
      | nil =>
        rw [hr] at hlv
        simp at hlv
        omega
      | cons h t => exact ⟨h, t, rfl⟩
    obtain ⟨h, t, hht⟩ := hview
    have hstep := ih (accumPush N a p) (accumPush_wf hN a p ⟨hlen, hidx⟩)
    rw [List.foldl_cons, hstep, ringView_push hN a p hlen hidx, hht]
    simp [List.append_assoc]

/-- Folding a list of pushes preserves well-formedness and the
invariant. -/
theorem foldl_accumPush_inv {N k : Nat} (hN : N = 2 ^ k)
    (hbound : 1023 * N < 65536) :
    ∀ (pushes : List Nat) (a : Accum), accumWf N a → accumInv a →
    (∀ x ∈ pushes, x ≤ 1023) →
    accumWf N (pushes.foldl (accumPush N) a) ∧
    accumInv (pushes.foldl (accumPush N) a) := by
  intro pushes
  induction pushes with
  | nil =>
    intro a hwf hinv _
    exact ⟨hwf, hinv⟩
  | cons p ps ih =>
    intro a hwf hinv hb
    have hp : p ≤ 1023 := hb p (by simp)
    have h1 := accumPush_wf hN a p hwf
    have h2 := accumPush_inv hbound a p hwf hinv hp
    exact ih (accumPush N a p) h1 h2 fun x hx => hb x (by simp [hx])

/-- After at least `N` pushes from any invariant-satisfying start, the
running sum is the exact sum of the last `N` pushed samples. -/
theorem foldl_accumPush_lastN {N k : Nat} (hN : N = 2 ^ k)
    (hbound : 1023 * N < 65536) (a : Accum) (pushes : List Nat)
    (hwf : accumWf N a) (hinv : accumInv a)
    (hb : ∀ x ∈ pushes, x ≤ 1023) (hn : N ≤ pushes.length) :
    (pushes.foldl (accumPush N) a).sum
      = (pushes.drop (pushes.length - N)).sum := by
  obtain ⟨_, hinvF⟩ := foldl_accumPush_inv hN hbound pushes a hwf hinv hb
  rw [hinvF.2, ← ringView_sum, foldl_accumPush_ringView hN pushes a hwf]
  have hlv : (ringView a).length = N := by
    rw [ringView_length a (by
      have h1 := hwf.1
      have h2 := hwf.2
      omega), hwf.1]
  have hdrop : ∀ m : Nat, m + (ringView a).length = pushes.length →
      (ringView a ++ pushes).drop pushes.length = pushes.drop m := by
    intro m hm
    rw [← hm, Nat.add_comm, ← List.drop_drop, List.drop_left]
  rw [hdrop (pushes.length - N) (by omega)]

/-! ## The ISR is exactly the interpreted phase table -/

set_option maxHeartbeats 3000000 in
theorem isrStep_eq_phaseTable (s : SensorState) (adcRaw : Nat) :
    isrStep s adcRaw
      = applyPhaseAction (phaseAction (s.tickCounter % 32) s.running s.fan1Kmode)
          s adcRaw := by
  have h15 : (s.tickCounter % 256) &&& 15 = s.tickCounter % 16 :=
    mod256_land15 _
  have h16 : ((s.tickCounter % 256) &&& 16 = 0) ↔ (s.tickCounter % 32 < 16) :=
    mod256_land16_eq_zero_iff _
  have hmod : (s.tickCounter % 32) % 16 = s.tickCounter % 16 :=
    mod32_mod16 _
  have hp16 : s.tickCounter % 16 = 0 ∨ s.tickCounter % 16 = 1 ∨
      s.tickCounter % 16 = 2 ∨ s.tickCounter % 16 = 3 ∨
      s.tickCounter % 16 = 4 ∨ s.tickCounter % 16 = 5 ∨
      s.tickCounter % 16 = 6 ∨ s.tickCounter % 16 = 7 ∨
      s.tickCounter % 16 = 8 ∨ s.tickCounter % 16 = 9 ∨
      s.tickCounter % 16 = 10 ∨ s.tickCounter % 16 = 11 ∨
      s.tickCounter % 16 = 12 ∨ s.tickCounter % 16 = 13 ∨
      s.tickCounter % 16 = 14 ∨ s.tickCounter % 16 = 15 := by omega
  rcases hp16 with hp|hp|hp|hp|hp|hp|hp|hp|hp|hp|hp|hp|hp|hp|hp|hp <;>
    cases hr : s.running <;>
    cases hk : s.fan1Kmode <;>
    by_cases hb : s.tickCounter % 32 < 16 <;>
    simp [isrStep, applyPhaseAction, phaseAction, h15, h16, hmod, hp, hb, hr, hk]

/-! ## Invariant preservation -/

theorem applyPhaseAction_preserves (act : PhaseAction) (s : SensorState)
    (adcRaw : Nat) (hwf : wfState s) (hir : irInvariant s)
    (hfan : fanInvariant s) :
    wfState (applyPhaseAction act s adcRaw) ∧
    irInvariant (applyPhaseAction act s adcRaw) ∧
    fanInvariant (applyPhaseAction act s adcRaw) := by
  obtain ⟨w1, w2, w3, w4, w5, w6, w7, w8, w9⟩ := hwf
  obtain ⟨i1, i2, i3, i4, i5, i6⟩ := hir
  obtain ⟨f1, f2, f3, f4⟩ := hfan
  obtain ⟨tg, x5, fl, nl, am⟩ := act
  have hv0 : adcRaw &&& 1023 ≤ 1023 := land1023_le adcRaw
  have hv1 : (adcRaw &&& 1023) ^^^ 512 ≤ 1023 := xor512_le hv0
  have hv : (if x5 = true then (adcRaw &&& 1023) ^^^ 512 else adcRaw &&& 1023)
      ≤ 1023 := by
    cases x5 <;> simpa
  have hir8 : cyclesAveragedIR = 2 ^ 3 := by norm_num [cyclesAveragedIR]
  have hfan16 : fanSamplesAveraged = 2 ^ 4 := by norm_num [fanSamplesAveraged]
  have hbir : 1023 * cyclesAveragedIR < 65536 := by norm_num [cyclesAveragedIR]
  have hbfan : 1023 * fanSamplesAveraged < 65536 := by
    norm_num [fanSamplesAveraged]
  cases tg with
  | noAccum =>
    simp [applyPhaseAction, wfState, irInvariant, fanInvariant,
      w1, w2, w3, w4, w5, w6, w7, w8, w9, i1, i2, i3, i4, i5, i6, f1, f2, f3, f4]
    exact ⟨⟨i1, i2, i3⟩, f1, f2⟩
  | nearIR =>
    obtain ⟨hWl, hWi⟩ := accumPush_wf hir8
      ⟨s.nearSumIR, s.nearLedReadings, s.nearLedIndex⟩
      (if x5 = true then (adcRaw &&& 1023) ^^^ 512 else adcRaw &&& 1023)
      ⟨w1, w4⟩
    obtain ⟨hIr, hIs⟩ := accumPush_inv hbir
      ⟨s.nearSumIR, s.nearLedReadings, s.nearLedIndex⟩
      (if x5 = true then (adcRaw &&& 1023) ^^^ 512 else adcRaw &&& 1023)
      ⟨w1, w4⟩ ⟨i1, i4⟩ hv
    simp [applyPhaseAction, wfState, irInvariant, fanInvariant,
      hWl, hWi, hIr, hIs,
      w1, w2, w3, w4, w5, w6, w7, w8, w9, i1, i2, i3, i5, i6, f1, f2, f3, f4]
    exact ⟨⟨hIr, i2, i3⟩, f1, f2⟩
  | farIR =>
    obtain ⟨hWl, hWi⟩ := accumPush_wf hir8
      ⟨s.farSumIR, s.farLedReadings, s.farLedIndex⟩
      (if x5 = true then (adcRaw &&& 1023) ^^^ 512 else adcRaw &&& 1023)
      ⟨w2, w5⟩
    obtain ⟨hIr, hIs⟩ := accumPush_inv hbir
      ⟨s.farSumIR, s.farLedReadings, s.farLedIndex⟩
      (if x5 = true then (adcRaw &&& 1023) ^^^ 512 else adcRaw &&& 1023)
      ⟨w2, w5⟩ ⟨i2, i5⟩ hv
    simp [applyPhaseAction, wfState, irInvariant, fanInvariant,
      hWl, hWi, hIr, hIs,
      w1, w2, w3, w4, w5, w6, w7, w8, w9, i1, i2, i3, i4, i6, f1, f2, f3, f4]
    exact ⟨⟨i1, hIr, i3⟩, f1, f2⟩
  | offIR =>
    obtain ⟨hWl, hWi⟩ := accumPush_wf hir8
      ⟨s.offSumIR, s.offReadings, s.offIndex⟩
      (if x5 = true then (adcRaw &&& 1023) ^^^ 512 else adcRaw &&& 1023)
      ⟨w3, w6⟩
    obtain ⟨hIr, hIs⟩ := accumPush_inv hbir
      ⟨s.offSumIR, s.offReadings, s.offIndex⟩
      (if x5 = true then (adcRaw &&& 1023) ^^^ 512 else adcRaw &&& 1023)
      ⟨w3, w6⟩ ⟨i3, i6⟩ hv
    simp [applyPhaseAction, wfState, irInvariant, fanInvariant,
      hWl, hWi, hIr, hIs,
      w1, w2, w3, w4, w5, w6, w7, w8, w9, i1, i2, i3, i4, i5, f1, f2, f3, f4]
    exact ⟨⟨i1, i2, hIr⟩, f1, f2⟩
  | fanActive =>
    obtain ⟨hWl, hWi⟩ := accumPush_wf hfan16
      ⟨s.fanReadingSum, s.fanReadings, s.fanIndex⟩
      (if x5 = true then (adcRaw &&& 1023) ^^^ 512 else adcRaw &&& 1023)
      ⟨w7, w9⟩
    obtain ⟨hIr, hIs⟩ := accumPush_inv hbfan
      ⟨s.fanReadingSum, s.fanReadings, s.fanIndex⟩
      (if x5 = true then (adcRaw &&& 1023) ^^^ 512 else adcRaw &&& 1023)
      ⟨w7, w9⟩ ⟨f1, f3⟩ hv
    simp [applyPhaseAction, wfState, irInvariant, fanInvariant,
      hWl, hWi, hIr, hIs,
      w1, w2, w3, w4, w5, w6, w7, w8, w9, i1, i2, i3, i4, i5, i6, f1, f2, f4]
    exact ⟨⟨i1, i2, i3⟩, hIr, f2⟩
  | fanOffset =>
    obtain ⟨hIr, hIs⟩ := accumPush_inv hbfan
      ⟨s.fanOffsetSum, s.fanOffsets, s.fanIndex⟩
      (if x5 = true then (adcRaw &&& 1023) ^^^ 512 else adcRaw &&& 1023)
      ⟨w8, w9⟩ ⟨f2, f4⟩ hv
    have hIr2 : ∀ r ∈ s.fanOffsets.set s.fanIndex
        (if x5 = true then (adcRaw &&& 1023) ^^^ 512 else adcRaw &&& 1023),
        r ≤ 1023 := hIr
    have hIs2 : u16 (u16 (s.fanOffsetSum + 65536 - s.fanOffsets.getD s.fanIndex 0)
        + (if x5 = true then (adcRaw &&& 1023) ^^^ 512 else adcRaw &&& 1023))
        = (s.fanOffsets.set s.fanIndex
            (if x5 = true then (adcRaw &&& 1023) ^^^ 512 else adcRaw &&& 1023)).sum :=
      hIs
    simp [w8, w9] at hIs2
    simp [applyPhaseAction, wfState, irInvariant, fanInvariant, hIr2, hIs2,
      w1, w2, w3, w4, w5, w6, w7, w8, w9, i1, i2, i3, i4, i5, i6, f1, f2, f3]
    exact ⟨⟨i1, i2, i3⟩, f1, hIr2⟩

/-- The ISR preserves the source ghost invariants `irInvariant()` and
`fanInvariant()` and the structural well-formedness of the arrays. -/
theorem isrStep_preserves (s : SensorState) (adcRaw : Nat) (hwf : wfState s)
    (hir : irInvariant s) (hfan : fanInvariant s) :
    wfState (isrStep s adcRaw) ∧ irInvariant (isrStep s adcRaw) ∧
    fanInvariant (isrStep s adcRaw) := by
  rw [isrStep_eq_phaseTable]
  exact applyPhaseAction_preserves _ s adcRaw hwf hir hfan

/-! ## Fan controller helper lemmas -/

/-- Turning on from off always loads the hold counter with
`(fanOnSeconds * fanSampleFreq) - 1`. -/
theorem checkFan_on_transition_count (ct onT offT : Nat) (s : FanState)
    (hoff : s.fanOn = false) (hon : (checkFan ct onT offT s).fanOn = true) :
    (checkFan ct onT offT s).fanChangeCount = fanOnSeconds * fanSampleFreq - 1 := by
  unfold checkFan at hon ⊢
  rw [hoff] at hon ⊢
  simp only [Bool.false_eq_true, if_false] at hon ⊢
  split
  case isTrue h => rfl
  case isFalse h =>
    rw [if_neg h] at hon
    simp [hoff] at hon

/-- With the fan on and a nonzero hold counter, one `checkFan` cannot turn
the fan off, and decrements the counter by at most one. -/
theorem checkFan_on_nonzero (ct onT offT : Nat) (s : FanState)
    (hon : s.fanOn = true) (hc : s.fanChangeCount ≠ 0) :
    (checkFan ct onT offT s).fanOn = true ∧
    s.fanChangeCount - 1 ≤ (checkFan ct onT offT s).fanChangeCount := by
  unfold checkFan
  rw [hon, if_pos rfl]
  simp only
  by_cases h2 : s.fanReadingSum < s.fanOffsetSum
  · rw [if_pos h2]
    by_cases h3 : ct ≤ s.fanOffsetSum - s.fanReadingSum ∧
        s.fanOffsetSum - s.fanReadingSum ≤ offT
    · rw [if_pos h3, if_neg hc]
      exact ⟨rfl, Nat.le_refl _⟩
    · rw [if_neg h3]
      exact ⟨hon, Nat.sub_le _ _⟩
  · rw [if_neg h2]
    exact ⟨hon, Nat.sub_le _ _⟩

/-- Through any run of fan polls no longer than the current hold counter,
a fan that is on stays on. -/
theorem fanPoll_stays (ct onT offT : Nat) :
    ∀ (sums : List (Nat × Nat)) (p : Bool × Nat), p.1 = true →
    sums.length ≤ p.2 → (sums.foldl (fanPoll ct onT offT) p).1 = true := by
  intro sums
  induction sums with
  | nil => intro p hp _; simpa using hp
  | cons so rest ih =>
    intro p hp hlen
    have hc : p.2 ≠ 0 := by
      simp only [List.length_cons] at hlen
      omega
    have hstep := checkFan_on_nonzero ct onT offT ⟨p.1, p.2, so.1, so.2⟩ hp hc
    have h1 : (checkFan ct onT offT ⟨p.1, p.2, so.1, so.2⟩).fanOn = true :=
      hstep.1
    have h2 : p.2 - 1 ≤ (checkFan ct onT offT ⟨p.1, p.2, so.1, so.2⟩).fanChangeCount :=
      hstep.2
    rw [List.foldl_cons]
    apply ih
    · simpa [fanPoll] using h1
    · simp only [List.length_cons] at hlen
      simp only [fanPoll]
      omega

/-- The accumulator sums of an invariant-satisfying state are bounded by
1023 times the window size. -/
theorem sums_bounded (s : SensorState) (hwf : wfState s) (hir : irInvariant s)
    (hfan : fanInvariant s) :
    s.nearSumIR ≤ 1023 * cyclesAveragedIR ∧
    s.farSumIR ≤ 1023 * cyclesAveragedIR ∧
    s.offSumIR ≤ 1023 * cyclesAveragedIR ∧
    s.fanReadingSum ≤ 1023 * fanSamplesAveraged ∧
    s.fanOffsetSum ≤ 1023 * fanSamplesAveraged := by
  obtain ⟨w1, w2, w3, w4, w5, w6, w7, w8, w9⟩ := hwf
  obtain ⟨i1, i2, i3, i4, i5, i6⟩ := hir
  obtain ⟨f1, f2, f3, f4⟩ := hfan
  refine ⟨?_, ?_, ?_, ?_, ?_⟩
  · rw [i4, ← w1]; exact sum_le_bound _ _ i1
  · rw [i5, ← w2]; exact sum_le_bound _ _ i2
  · rw [i6, ← w3]; exact sum_le_bound _ _ i3
  · rw [f3, ← w7]; exact sum_le_bound _ _ f1
  · rw [f4, ← w8]; exact sum_le_bound _ _ f2

/-! ## Claim theorems -/

/-- C1: every ISR firing preserves the exact-sum invariants of the five
accumulators (slots at most 1023, each sum equal to the sum of its
array), and consequently, for any sequence of pushed samples of length at
least the window size, the running sum is the exact sum of the last
`cyclesAveragedIR` (resp. `fanSamplesAveraged`) samples pushed, cursor
wraparound included. -/
theorem C1_accumulator_sums_exact :
    (∀ (s : SensorState) (adcRaw : Nat),
      wfState s → irInvariant s → fanInvariant s →
      irInvariant (isrStep s adcRaw) ∧ fanInvariant (isrStep s adcRaw)) ∧
    (∀ (a : Accum) (pushes : List Nat),
      accumWf cyclesAveragedIR a → accumInv a → (∀ x ∈ pushes, x ≤ 1023) →
      cyclesAveragedIR ≤ pushes.length →
      (pushes.foldl (accumPush cyclesAveragedIR) a).sum
        = (pushes.drop (pushes.length - cyclesAveragedIR)).sum) ∧
    (∀ (a : Accum) (pushes : List Nat),
      accumWf fanSamplesAveraged a → accumInv a → (∀ x ∈ pushes, x ≤ 1023) →
      fanSamplesAveraged ≤ pushes.length →
      (pushes.foldl (accumPush fanSamplesAveraged) a).sum
        = (pushes.drop (pushes.length - fanSamplesAveraged)).sum) := by
  refine ⟨?_, ?_, ?_⟩
  · intro s adcRaw hwf hir hfan
    obtain ⟨_, h2, h3⟩ := isrStep_preserves s adcRaw hwf hir hfan
    exact ⟨h2, h3⟩
  · intro a pushes hwf hinv hb hn
    exact foldl_accumPush_lastN (k := 3) (by norm_num [cyclesAveragedIR])
      (by norm_num [cyclesAveragedIR]) a pushes hwf hinv hb hn
  · intro a pushes hwf hinv hb hn
    exact foldl_accumPush_lastN (k := 4) (by norm_num [fanSamplesAveraged])
      (by norm_num [fanSamplesAveraged]) a pushes hwf hinv hb hn

/-- Witness for C1 at a concrete state and push sequence. -/
theorem C1_accumulator_sums_exact_witness :
    (irInvariant (isrStep testState 777) ∧ fanInvariant (isrStep testState 777)) ∧
    ((List.replicate 20 7).foldl (accumPush cyclesAveragedIR)
        ⟨0, List.replicate 8 0, 0⟩).sum
      = ((List.replicate 20 7).drop 12).sum := by
  constructor
  · exact C1_accumulator_sums_exact.1 testState 777 (by decide) (by decide)
      (by decide)
  · have h := C1_accumulator_sums_exact.2.1 ⟨0, List.replicate 8 0, 0⟩
      (List.replicate 20 7) (by decide) (by decide) (by decide) (by decide)
    simpa [cyclesAveragedIR] using h

/-- C2: each ISR firing is exactly the interpretation of the phase table:
a deterministic function of the low five bits of the tick counter and the
`running` and `fan1Kmode` flags, routing each ADC result to the phase
table target, driving the LEDs, and reprogramming ADMUX as the table
specifies for all sixteen phases. -/
theorem C2_phase_table_determinism :
    ∀ (s : SensorState) (adcRaw : Nat),
      isrStep s adcRaw
        = applyPhaseAction
            (phaseAction (s.tickCounter % 32) s.running s.fan1Kmode) s adcRaw :=
  fun s adcRaw => isrStep_eq_phaseTable s adcRaw

/-- C3: a snapshot whose raw near or far sum reaches
`saturatedThreshold` yields the Saturated output, in either mode. -/
theorem C3_saturation_precedence :
    ∀ (nearSum farSum offSum : Nat) (duetInputHigh : Bool),
      saturatedThreshold ≤ nearSum ∨ saturatedThreshold ≤ farSum →
      runIRdecision nearSum farSum offSum duetInputHigh
        = SensorOutput.Saturated := by
  intro n f o p h
  unfold runIRdecision
  rw [if_pos h]

/-- Witness for C3 with near = 900 x 8, far = 0, in both modes. -/
theorem C3_saturation_precedence_witness :
    runIRdecision (900 * 8) 0 0 false = SensorOutput.Saturated ∧
    runIRdecision (900 * 8) 0 0 true = SensorOutput.Saturated :=
  ⟨C3_saturation_precedence (900 * 8) 0 0 false (Or.inl (by decide)),
   C3_saturation_precedence (900 * 8) 0 0 true (Or.inl (by decide))⟩

/-- C4: the baseline subtraction clamps at zero, it computes
max 0 (x - off) over the integers; in particular 5 minus baseline 10
gives 0. -/
theorem C4_baseline_floor :
    (∀ x off : Nat,
      ((baselineAdjust x off : Nat) : Int) = max 0 ((x : Int) - (off : Int))) ∧
    baselineAdjust 5 10 = 0 := by
  constructor
  · intro x off
    unfold baselineAdjust
    rcases Nat.lt_or_ge off x with h | h
    · rw [if_pos h, max_eq_right (by omega : (0 : Int) ≤ (x : Int) - off)]
      omega
    · rw [if_neg (by omega), max_eq_left (by omega : ((x : Int) - off) ≤ 0)]
      simp
  · rfl

/-- C5: in simple mode (Duet input pin low) a non-saturated snapshot
yields On exactly when the baseline-subtracted near sum reaches
`simpleNearThreshold`, and Off otherwise; Approaching is never produced. -/
theorem C5_simple_mode_no_approaching :
    ∀ (nearSum farSum offSum : Nat),
      nearSum < saturatedThreshold → farSum < saturatedThreshold →
      (runIRdecision nearSum farSum offSum false
        = if simpleNearThreshold ≤ baselineAdjust nearSum offSum
          then SensorOutput.On else SensorOutput.Off) ∧
      runIRdecision nearSum farSum offSum false ≠ SensorOutput.Approaching := by
  intro n f o hn hf
  have hns : ¬(saturatedThreshold ≤ n ∨ saturatedThreshold ≤ f) := by
    push_neg
    exact ⟨hn, hf⟩
  constructor
  · unfold runIRdecision
    rw [if_neg hns]
    simp only []
    rw [if_pos trivial]
  · unfold runIRdecision
    rw [if_neg hns]
    simp only []
    rw [if_pos trivial]
    split <;> simp

/-- Witness for C5: values that give Approaching in differential mode
give Off, not Approaching, in simple mode. -/
theorem C5_simple_mode_no_approaching_witness :
    runIRdecision 100 110 0 true = SensorOutput.Approaching ∧
    runIRdecision 100 110 0 false = SensorOutput.Off ∧
    (runIRdecision 100 110 0 false
      = if simpleNearThreshold ≤ baselineAdjust 100 0
        then SensorOutput.On else SensorOutput.Off) ∧
    runIRdecision 100 110 0 false ≠ SensorOutput.Approaching :=
  ⟨by decide, by decide,
   (C5_simple_mode_no_approaching 100 110 0 (by decide) (by decide)).1,
   (C5_simple_mode_no_approaching 100 110 0 (by decide) (by decide)).2⟩

/-- C6: switching the fan from off to on loads the hold counter with
`fanOnSeconds * fanSampleFreq - 1`; with the fan on and a nonzero counter
no invocation can switch it off; hence after a turn-on the fan stays on
through any following run of at most `fanOnSeconds * fanSampleFreq - 1`
fan polls, whatever sums they observe. -/
theorem C6_fan_hysteresis :
    (∀ (ct onT offT : Nat) (s : FanState), s.fanOn = false →
      (checkFan ct onT offT s).fanOn = true →
      (checkFan ct onT offT s).fanChangeCount
        = fanOnSeconds * fanSampleFreq - 1) ∧
    (∀ (ct onT offT : Nat) (s : FanState), s.fanOn = true →
      s.fanChangeCount ≠ 0 → (checkFan ct onT offT s).fanOn = true) ∧
    (∀ (ct onT offT : Nat) (s : FanState) (sums : List (Nat × Nat)),
      s.fanOn = false → (checkFan ct onT offT s).fanOn = true →
      sums.length ≤ fanOnSeconds * fanSampleFreq - 1 →
      (sums.foldl (fanPoll ct onT offT)
        ((checkFan ct onT offT s).fanOn,
         (checkFan ct onT offT s).fanChangeCount)).1 = true) := by
  refine ⟨?_, ?_, ?_⟩
  · exact fun ct onT offT s hoff hon =>
      checkFan_on_transition_count ct onT offT s hoff hon
  · exact fun ct onT offT s hon hc => (checkFan_on_nonzero ct onT offT s hon hc).1
  · intro ct onT offT s sums hoff hon hlen
    apply fanPoll_stays ct onT offT sums
    · simpa using hon
    · have hcnt := checkFan_on_transition_count ct onT offT s hoff hon
      simp only [hcnt]
      exact hlen

/-- Witness for C6: turn on with the 1K-mode thresholds, then hold
through 31 polls whose sums all satisfy the off-eligible condition. -/
theorem C6_fan_hysteresis_witness :
    (checkFan 480 6400 5440 ⟨false, 0, 100, 50⟩).fanChangeCount
      = fanOnSeconds * fanSampleFreq - 1 ∧
    ((List.replicate 31 (0, 1000)).foldl (fanPoll 480 6400 5440)
      ((checkFan 480 6400 5440 ⟨false, 0, 100, 50⟩).fanOn,
       (checkFan 480 6400 5440 ⟨false, 0, 100, 50⟩).fanChangeCount)).1 = true := by
  constructor
  · exact C6_fan_hysteresis.1 480 6400 5440 ⟨false, 0, 100, 50⟩ (by decide)
      (by decide)
  · exact C6_fan_hysteresis.2.2 480 6400 5440 ⟨false, 0, 100, 50⟩
      (List.replicate 31 (0, 1000)) (by decide) (by decide) (by decide)

/-- C7 counterexample: the decrement branch does fire.  With the real
1K-mode thresholds, a turn-on (reachable with the counter loaded to 31)
followed by an invocation with the fan on and diff = 1000 inside the
off-eligible range [480, 5440] is observed to decrement the counter. -/
theorem C7_decrement_branch_fires :
    (checkFan 480 6400 5440 ⟨false, 0, 2000, 1000⟩).fanOn = true ∧
    (checkFan 480 6400 5440 ⟨false, 0, 2000, 1000⟩).fanChangeCount = 31 ∧
    480 ≤ 2000 - 1000 ∧ 2000 - 1000 ≤ 5440 ∧
    (checkFan 480 6400 5440 ⟨true, 31, 1000, 2000⟩).fanOn = true ∧
    (checkFan 480 6400 5440 ⟨true, 31, 1000, 2000⟩).fanChangeCount = 30 := by
  decide

/-- C7 amended: in an invocation with the fan on and diff in the
off-eligible range, the hold counter is decremented exactly when it is
nonzero (the fan stays on), and the fan switches off exactly when the
counter is zero; the decrement branch is reachable and realizes the
minimum-on-time hysteresis. -/
theorem C7_decrement_branch_amended :
    ∀ (ct onT offT : Nat) (s : FanState), s.fanOn = true →
      s.fanReadingSum < s.fanOffsetSum →
      ct ≤ s.fanOffsetSum - s.fanReadingSum →
      s.fanOffsetSum - s.fanReadingSum ≤ offT →
      (s.fanChangeCount = 0 → (checkFan ct onT offT s).fanOn = false) ∧
      (s.fanChangeCount ≠ 0 →
        (checkFan ct onT offT s).fanOn = true ∧
        (checkFan ct onT offT s).fanChangeCount = s.fanChangeCount - 1) := by
  intro ct onT offT s hon hlt hc1 hc2
  unfold checkFan
  rw [hon, if_pos rfl]
  simp only
  rw [if_pos hlt, if_pos ⟨hc1, hc2⟩]
  constructor
  · intro h0
    rw [if_pos h0]
  · intro hne
    rw [if_neg hne]
    exact ⟨rfl, rfl⟩

/-- Witness for the amended C7 at the concrete off-eligible inputs. -/
theorem C7_decrement_branch_amended_witness :
    ((checkFan 480 6400 5440 ⟨true, 5, 1000, 2000⟩).fanOn = true ∧
     (checkFan 480 6400 5440 ⟨true, 5, 1000, 2000⟩).fanChangeCount = 4) ∧
    (checkFan 480 6400 5440 ⟨true, 0, 1000, 2000⟩).fanOn = false := by
  constructor
  · have h := (C7_decrement_branch_amended 480 6400 5440 ⟨true, 5, 1000, 2000⟩
      rfl (by decide) (by decide) (by decide)).2 (by decide)
    exact ⟨h.1, by simpa using h.2⟩
  · exact (C7_decrement_branch_amended 480 6400 5440 ⟨true, 0, 1000, 2000⟩
      rfl (by decide) (by decide) (by decide)).1 rfl

/-- C8: with the fan off, a reading sum at or above the offset sum turns
the fan on, whatever the three thresholds are. -/
theorem C8_fan_disconnect_safety :
    ∀ (ct onT offT : Nat) (s : FanState), s.fanOn = false →
      s.fanOffsetSum ≤ s.fanReadingSum →
      (checkFan ct onT offT s).fanOn = true := by
  intro ct onT offT s hoff hge
  unfold checkFan
  rw [hoff]
  simp only [Bool.false_eq_true, if_false]
  rw [if_pos (Or.inl hge)]

/-- Witness for C8 with degenerate threshold values. -/
theorem C8_fan_disconnect_safety_witness :
    (checkFan 99999 0 7 ⟨false, 3, 50, 50⟩).fanOn = true :=
  C8_fan_disconnect_safety 99999 0 7 ⟨false, 3, 50, 50⟩ rfl (by decide)

/-- C9: ADC samples are masked to 10 bits, the 1K-mode sign conversion
keeps them in 10 bits, and in any invariant-satisfying state, before and
after any ISR firing, every accumulator sum is bounded by 1023 times its
window size, below 2 to the 16. -/
theorem C9_no_accumulator_overflow :
    (∀ adcRaw : Nat, adcRaw &&& 1023 ≤ 1023) ∧
    (∀ x : Nat, x ≤ 1023 → x ^^^ 512 ≤ 1023) ∧
    (∀ (s : SensorState) (adcRaw : Nat),
      wfState s → irInvariant s → fanInvariant s →
      (s.nearSumIR ≤ 1023 * cyclesAveragedIR ∧
       s.farSumIR ≤ 1023 * cyclesAveragedIR ∧
       s.offSumIR ≤ 1023 * cyclesAveragedIR ∧
       s.fanReadingSum ≤ 1023 * fanSamplesAveraged ∧
       s.fanOffsetSum ≤ 1023 * fanSamplesAveraged) ∧
      ((isrStep s adcRaw).nearSumIR ≤ 1023 * cyclesAveragedIR ∧
       (isrStep s adcRaw).farSumIR ≤ 1023 * cyclesAveragedIR ∧
       (isrStep s adcRaw).offSumIR ≤ 1023 * cyclesAveragedIR ∧
       (isrStep s adcRaw).fanReadingSum ≤ 1023 * fanSamplesAveraged ∧
       (isrStep s adcRaw).fanOffsetSum ≤ 1023 * fanSamplesAveraged) ∧
      1023 * cyclesAveragedIR < 65536 ∧ 1023 * fanSamplesAveraged < 65536) := by
  refine ⟨fun adcRaw => land1023_le adcRaw, fun x hx => xor512_le hx, ?_⟩
  intro s adcRaw hwf hir hfan
  obtain ⟨hwf2, hir2, hfan2⟩ := isrStep_preserves s adcRaw hwf hir hfan
  exact ⟨sums_bounded s hwf hir hfan, sums_bounded _ hwf2 hir2 hfan2,
    by norm_num [cyclesAveragedIR], by norm_num [fanSamplesAveraged]⟩

/-- Witness for C9 at the concrete post-initialisation state. -/
theorem C9_no_accumulator_overflow_witness :
    (isrStep testState 777).nearSumIR ≤ 1023 * cyclesAveragedIR ∧
    (isrStep testState 777).fanReadingSum ≤ 1023 * fanSamplesAveraged ∧
    (isrStep testState 777).fanOffsetSum ≤ 1023 * fanSamplesAveraged := by
  have h := C9_no_accumulator_overflow.2.2 testState 777 (by decide) (by decide)
    (by decide)
  exact ⟨h.2.1.1, h.2.1.2.2.2.1, h.2.1.2.2.2.2⟩

/-- C10 counterexample: the shared-variable trace of a full foreground
iteration that reaches the fan poll contains accumulator-sum reads
performed with interrupts enabled (the reads inside `checkFan`), so not
every accumulator-sum read of the foreground code is bracketed by
interrupt-disable and interrupt-enable. -/
theorem C10_checkFan_reads_unmasked :
    allSumReadsMasked fgIterationTrace = false := by decide

/-- C10 amended: the three-sum IR snapshot and the tick counter poll in
`runIRsensorAndFan` are bracketed by `cli` and `sei`, but the
`fanReadingSum` and `fanOffsetSum` reads inside `checkFan` happen with
interrupts enabled on both of its paths. -/
theorem C10_masking_amended :
    allSumReadsMasked irSnapshotTrace = true ∧
    allSumReadsMasked tickPollTrace = true ∧
    allSumReadsMasked checkFanOnTrace = false ∧
    allSumReadsMasked checkFanOffTrace = false := by decide

end Ormerod
